import Mathlib

/-!
Shallow embedding of `task_cli.py`, a single-file task-tracker CLI.

The persisted document is modelled as a JSON value (the serialization text
itself is an opaque encode/decode contract, so a document is identified with
the value it decodes to).  Python dicts are association lists with unique
keys; Python ints are `Int`; timestamps produced by `now_iso()` are opaque
strings passed in as a parameter `ts`.

Each `cmd_*` function mirrors the corresponding Python function.  A command
returns the file state after the command (the file is only written by
`save_tasks`, or by the bootstrap in `ensure_db_exists`) together with
`Except CmdErr α`: `.error` models `sys.exit(1)` after printing a diagnostic,
`.ok` models the success path.
-/

namespace TaskCli

/-- A decoded JSON value.  Numbers are restricted to integers: the repository
only ever writes integer ids and string fields, and fractional numbers play
no role in any modelled behaviour. -/
inductive Json where
  | null
  | bool (b : Bool)
  | num (n : Int)
  | str (s : String)
  | arr (elems : List Json)
  | obj (fields : List (String × Json))

/-- A Python dict with JSON-compatible values, as an association list. -/
abbrev Dict := List (String × Json)

/-- Python dict read `d.get(k)` (first binding wins; decoded dicts have
unique keys). -/
def getKey : Dict → String → Option Json
  | [], _ => none
  | (k0, v0) :: rest, k => if k0 = k then some v0 else getKey rest k

/-- Python dict assignment `d[k] = v`: replace in place if the key is present
(keeping its position), append otherwise. -/
def setKey : Dict → String → Json → Dict
  | [], k, v => [(k, v)]
  | (k0, v0) :: rest, k, v =>
    if k0 = k then (k, v) :: rest else (k0, v0) :: setKey rest k v

/-- The integer value of a Json value that `isinstance(·, int)` accepts:
Python ints, and Python bools (which are ints: `True == 1`, `False == 0`). -/
def asInt? : Json → Option Int
  | Json.num n => some n
  | Json.bool b => some (if b then 1 else 0)
  | _ => none

/-- Python `v == i` where `i` is an int and `v` came from `dict.get`
(possibly `None`). -/
def pyEqInt (v : Option Json) (i : Int) : Bool :=
  match v with
  | some j =>
    match asInt? j with
    | some n => n = i
    | none => false
  | none => false

/-- Python `v == s` where `s` is a str and `v` came from `dict.get`. -/
def pyEqStr (v : Option Json) (s : String) : Bool :=
  match v with
  | some (Json.str s0) => s0 = s
  | _ => false

/-- ASCII whitespace stripped by Python `str.strip()` (the non-ASCII
whitespace Python also strips plays no role here). -/
def isPySpace (c : Char) : Bool :=
  c = ' ' || c = '\t' || c = '\n' || c = '\r' || c = '\x0b' || c = '\x0c'

/-- Python `str.strip()` with no argument. -/
def pyStrip (s : String) : String :=
  ⟨((s.data.dropWhile isPySpace).reverse.dropWhile isPySpace).reverse⟩

/-- Python `str.lower()` (ASCII letters). -/
def pyLower (s : String) : String :=
  ⟨s.data.map Char.toLower⟩

/-- Python `" ".join(args)`. -/
def joinSpace : List String → String
  | [] => ""
  | [a] => a
  | a :: rest => a ++ " " ++ joinSpace rest

/-- The state of the `tasks.json` file: absent, present but not decodable as
JSON, or present with decoded content `j`. -/
inductive FileState where
  | missing
  | invalid
  | content (j : Json)

/-- A diagnostic printed followed by `sys.exit(1)`. -/
inductive CmdErr where
  | usage
  | emptyInput
  | invalidId
  | notFound
  | invalidFilter
  | storageUnreadable
  deriving DecidableEq, Repr

/-- Function `ensure_db_exists`: create the file holding `[]` when it is missing.
(The fatal `OSError` branch is an I/O failure outside the modelled state.) -/
def ensure_db_exists (fs : FileState) : FileState :=
  match fs with
  | FileState.missing => FileState.content (Json.arr [])
  | _ => fs

/-- The `isinstance(t, dict)` filter used by `load_tasks`. -/
def asDict? : Json → Option Dict
  | Json.obj fields => some fields
  | _ => none

/-- Function `load_tasks`: ensure the file exists, decode it, require a list at the
top level (else fatal), and keep only the dict elements. -/
def load_tasks (fs : FileState) : FileState × Except CmdErr (List Dict) :=
  match ensure_db_exists fs with
  | FileState.missing => (FileState.missing, Except.error CmdErr.storageUnreadable)
  | FileState.invalid => (FileState.invalid, Except.error CmdErr.storageUnreadable)
  | FileState.content j =>
    match j with
    | Json.arr elems => (FileState.content j, Except.ok (elems.filterMap asDict?))
    | _ => (FileState.content j, Except.error CmdErr.storageUnreadable)

/-- Function `save_tasks`: the document value written by `json.dump(tasks, f)`. -/
def save_tasks (tasks : List Dict) : Json :=
  Json.arr (tasks.map Json.obj)

/-- Function `next_id`: `1 +` the maximum integer-valued `"id"` field, starting the
running maximum at `0`. -/
def next_id (tasks : List Dict) : Int :=
  (tasks.foldl
    (fun max_id t =>
      match (getKey t "id").bind asInt? with
      | some tid => if tid > max_id then tid else max_id
      | none => max_id)
    0) + 1

/-- Value of a run of decimal digits possibly separated by single
underscores (Python int-literal syntax), given that the previous character
was a digit. -/
def digitsVal (acc : Nat) : List Char → Option Nat
  | [] => some acc
  | c :: cs =>
    if c.isDigit then digitsVal (10 * acc + (c.toNat - 48)) cs
    else if c = '_' then
      match cs with
      | c2 :: cs2 =>
        if c2.isDigit then digitsVal (10 * acc + (c2.toNat - 48)) cs2 else none
      | [] => none
    else none

/-- Digit run that must start with a digit. -/
def digitsVal0 : List Char → Option Nat
  | [] => none
  | c :: cs => if c.isDigit then digitsVal (c.toNat - 48) cs else none

/-- Python `int(s)` for a decimal string: surrounding whitespace stripped,
optional sign, digits with single underscores between digits; `none` models
`ValueError`. -/
def pyIntOfString? (s : String) : Option Int :=
  match (pyStrip s).data with
  | '+' :: rest => (digitsVal0 rest).map Int.ofNat
  | '-' :: rest => (digitsVal0 rest).map (fun n => -(Int.ofNat n))
  | cs => (digitsVal0 cs).map Int.ofNat

/-- Function `parse_id`: `int(s)`, rejecting values `≤ 0`; both failure modes print
the same diagnostic and exit. -/
def parse_id (s : String) : Except CmdErr Int :=
  match pyIntOfString? s with
  | some i => if i ≤ 0 then Except.error CmdErr.invalidId else Except.ok i
  | none => Except.error CmdErr.invalidId

/-- Function `find_task`: first task whose `"id"` field compares `==` to `task_id`. -/
def find_task : List Dict → Int → Option Dict
  | [], _ => none
  | t :: ts, task_id =>
    if pyEqInt (getKey t "id") task_id then some t else find_task ts task_id

/-- Mutating the dict returned by `find_task` in place: apply `f` to the
first task whose id matches. -/
def updateFirst (f : Dict → Dict) : List Dict → Int → List Dict
  | [], _ => []
  | t :: ts, task_id =>
    if pyEqInt (getKey t "id") task_id then f t :: ts
    else t :: updateFirst f ts task_id

/-- The dict literal built by `cmd_add`. -/
def mkTask (tid : Int) (description ts : String) : Dict :=
  [("id", Json.num tid),
   ("description", Json.str description),
   ("status", Json.str "todo"),
   ("createdAt", Json.str ts),
   ("updatedAt", Json.str ts)]

/-- Function `cmd_add`: validate the description, load, append the new task, save.
`ts` is the value of `now_iso()`. -/
def cmd_add (args : List String) (ts : String) (fs : FileState) :
    FileState × Except CmdErr Int :=
  if args.length < 1 then (fs, Except.error CmdErr.usage)
  else
    let description := pyStrip (joinSpace args)
    if description = "" then (fs, Except.error CmdErr.emptyInput)
    else
      match load_tasks fs with
      | (fs1, Except.error e) => (fs1, Except.error e)
      | (fs1, Except.ok tasks) =>
        let tid := next_id tasks
        let task := mkTask tid description ts
        let _ := fs1
        (FileState.content (save_tasks (tasks ++ [task])), Except.ok tid)

/-- Function `cmd_update`: parse id, validate description, load, find, replace
`"description"` and `"updatedAt"` on the found task, save. -/
def cmd_update (args : List String) (ts : String) (fs : FileState) :
    FileState × Except CmdErr Unit :=
  if args.length < 2 then (fs, Except.error CmdErr.usage)
  else
    match parse_id (args.headD "") with
    | Except.error e => (fs, Except.error e)
    | Except.ok task_id =>
      let new_description := pyStrip (joinSpace args.tail)
      if new_description = "" then (fs, Except.error CmdErr.emptyInput)
      else
        match load_tasks fs with
        | (fs1, Except.error e) => (fs1, Except.error e)
        | (fs1, Except.ok tasks) =>
          match find_task tasks task_id with
          | none => (fs1, Except.error CmdErr.notFound)
          | some _ =>
            let tasks2 := updateFirst
              (fun t => setKey (setKey t "description" (Json.str new_description))
                "updatedAt" (Json.str ts)) tasks task_id
            (FileState.content (save_tasks tasks2), Except.ok ())

/-- Function `cmd_delete`: parse id, load, drop every task whose id matches, error if
nothing was dropped, save. -/
def cmd_delete (args : List String) (fs : FileState) :
    FileState × Except CmdErr Unit :=
  if args.length ≠ 1 then (fs, Except.error CmdErr.usage)
  else
    match parse_id (args.headD "") with
    | Except.error e => (fs, Except.error e)
    | Except.ok task_id =>
      match load_tasks fs with
      | (fs1, Except.error e) => (fs1, Except.error e)
      | (fs1, Except.ok tasks) =>
        let tasks2 := tasks.filter (fun t => !(pyEqInt (getKey t "id") task_id))
        if tasks2.length = tasks.length then (fs1, Except.error CmdErr.notFound)
        else (FileState.content (save_tasks tasks2), Except.ok ())

/-- Function `set_status`: assign `"status"` then refresh `"updatedAt"`. -/
def set_status (task : Dict) (status ts : String) : Dict :=
  setKey (setKey task "status" (Json.str status)) "updatedAt" (Json.str ts)

/-- Shared body of `cmd_mark_in_progress` and `cmd_mark_done`. -/
def cmd_mark (status : String) (args : List String) (ts : String)
    (fs : FileState) : FileState × Except CmdErr Unit :=
  if args.length ≠ 1 then (fs, Except.error CmdErr.usage)
  else
    match parse_id (args.headD "") with
    | Except.error e => (fs, Except.error e)
    | Except.ok task_id =>
      match load_tasks fs with
      | (fs1, Except.error e) => (fs1, Except.error e)
      | (fs1, Except.ok tasks) =>
        match find_task tasks task_id with
        | none => (fs1, Except.error CmdErr.notFound)
        | some _ =>
          let tasks2 := updateFirst (fun t => set_status t status ts) tasks task_id
          (FileState.content (save_tasks tasks2), Except.ok ())

/-- Command `mark-in-progress`. -/
def cmd_mark_in_progress (args : List String) (ts : String) (fs : FileState) :
    FileState × Except CmdErr Unit :=
  cmd_mark "in-progress" args ts fs

/-- Command `mark-done`. -/
def cmd_mark_done (args : List String) (ts : String) (fs : FileState) :
    FileState × Except CmdErr Unit :=
  cmd_mark "done" args ts fs

/-- The `VALID_STATUSES` set. -/
def VALID_STATUSES : List String := ["todo", "in-progress", "done"]

/-- The sort key `lambda x: x.get("id", 10**9)` used for display.  A present
non-integer id is outside the modelled domain (CPython would raise comparing
it with an int). -/
def sortKey (t : Dict) : Int :=
  match getKey t "id" with
  | some j =>
    match asInt? j with
    | some n => n
    | none => 1000000000
  | none => 1000000000

/-- Python `sorted(tasks, key=...)`: stable sort ascending by `sortKey`. -/
def sortTasks (tasks : List Dict) : List Dict :=
  tasks.insertionSort (fun a b => sortKey a ≤ sortKey b)

/-- Function `cmd_list`: load, validate the optional status filter, filter, sort by
id for display; never writes the file. -/
def cmd_list (args : List String) (fs : FileState) :
    FileState × Except CmdErr (List Dict) :=
  match load_tasks fs with
  | (fs1, Except.error e) => (fs1, Except.error e)
  | (fs1, Except.ok tasks) =>
    match args with
    | [] => (fs1, Except.ok (sortTasks tasks))
    | [a] =>
      let status_filter := pyLower (pyStrip a)
      if status_filter ∈ VALID_STATUSES then
        (fs1, Except.ok (sortTasks (tasks.filter
          (fun t => pyEqStr (getKey t "status") status_filter))))
      else (fs1, Except.error CmdErr.invalidFilter)
    | _ => (fs1, Except.error CmdErr.usage)

/-! ### Well-formed collections and spec-side notions -/

/-- The id of a task, when it is a genuine integer (not a bool). -/
def idOf? (t : Dict) : Option Int :=
  match getKey t "id" with
  | some (Json.num n) => some n
  | _ => none

/-- A well-formed task record: its `"id"` field is a positive integer. -/
def wfTask (t : Dict) : Prop :=
  ∃ n : Int, idOf? t = some n ∧ 0 < n

instance (t : Dict) : Decidable (wfTask t) := by
  unfold wfTask
  match h : idOf? t with
  | none => exact isFalse (by simp [h])
  | some n => exact decidable_of_iff (0 < n) (by simp [h])

/-- A well-formed collection: every record is well-formed and ids are
pairwise distinct. -/
def WfTasks (tasks : List Dict) : Prop :=
  (∀ t ∈ tasks, wfTask t) ∧ (tasks.filterMap idOf?).Nodup

instance (tasks : List Dict) : Decidable (WfTasks tasks) := by
  unfold WfTasks; infer_instance

/-- The spec's id formula: `1 + max(existing ids, default 0)`. -/
def specNextId (tasks : List Dict) : Int :=
  1 + (tasks.filterMap idOf?).foldr max 0

/-- One step of the add/delete traces of the id-uniqueness claim. -/
inductive Op where
  | add (desc ts : String)
  | del (idTok : String)

/-- The file state after one operation. -/
def applyOp (fs : FileState) : Op → FileState
  | Op.add d ts => (cmd_add [d] ts fs).1
  | Op.del s => (cmd_delete [s] fs).1

/-- The id assigned by one operation, when it is a successful add. -/
def assignedId (fs : FileState) : Op → Option Int
  | Op.add d ts =>
    match (cmd_add [d] ts fs).2 with
    | Except.ok i => some i
    | Except.error _ => none
  | Op.del _ => none

/-- Run a trace of operations; return the final file state and the ids
assigned by the adds, in order. -/
def runOps (fs : FileState) : List Op → FileState × List Int
  | [] => (fs, [])
  | op :: ops =>
    let fs1 := applyOp fs op
    let rest := runOps fs1 ops
    (rest.1, (assignedId fs op).toList ++ rest.2)

/-- The empty persisted collection. -/
def emptyDb : FileState := FileState.content (Json.arr [])

/-- Whether an operation is an add. -/
def isAdd : Op → Bool
  | Op.add _ _ => true
  | Op.del _ => false

/-- Whether a trace consists of add operations only. -/
def addOnly (ops : List Op) : Prop :=
  ∀ op ∈ ops, isAdd op

instance (ops : List Op) : Decidable (addOnly ops) := by
  unfold addOnly; infer_instance

/-- The file state after `load_tasks` followed immediately by
`save_tasks` of the loaded collection, with no mutation between (the file
is left as the load left it when the load fails fatally). -/
def saveAfterLoad (fs : FileState) : FileState :=
  match load_tasks fs with
  | (_, Except.ok tasks) => FileState.content (save_tasks tasks)
  | (fs1, Except.error _) => fs1

/-! ### Basic lemmas about the embedded operations -/

theorem getKey_setKey_same (d : Dict) (k : String) (v : Json) :
    getKey (setKey d k v) k = some v := by
  induction d with
  | nil => simp [setKey, getKey]
  | cons kv rest ih =>
    obtain ⟨k0, v0⟩ := kv
    by_cases h0 : k0 = k
    · subst h0; simp [setKey, getKey]
    · simp only [setKey, if_neg h0, getKey, ih]

theorem getKey_setKey_other (d : Dict) (k k2 : String) (v : Json)
    (h : k2 ≠ k) : getKey (setKey d k v) k2 = getKey d k2 := by
  induction d with
  | nil =>
    simp only [setKey, getKey]
    rw [if_neg (fun hh => h hh.symm)]
  | cons kv rest ih =>
    obtain ⟨k0, v0⟩ := kv
    by_cases h0 : k0 = k
    · subst h0
      simp only [setKey, if_pos rfl, getKey]
      rw [if_neg (fun hh : k0 = k2 => h hh.symm), if_neg (fun hh : k0 = k2 => h hh.symm)]
    · simp only [setKey, if_neg h0, getKey, ih]

theorem filterMap_asDict_map_obj (tasks : List Dict) :
    (tasks.map Json.obj).filterMap asDict? = tasks := by
  induction tasks with
  | nil => rfl
  | cons t rest ih => simp [List.filterMap_cons, asDict?, ih]

/-- Loading a just-saved collection returns it unchanged and does not touch
the file. -/
theorem load_save_tasks (tasks : List Dict) :
    load_tasks (FileState.content (save_tasks tasks)) =
      (FileState.content (save_tasks tasks), Except.ok tasks) := by
  have h := filterMap_asDict_map_obj tasks
  show (FileState.content (Json.arr (tasks.map Json.obj)),
      Except.ok ((tasks.map Json.obj).filterMap asDict?)) =
    (FileState.content (save_tasks tasks), Except.ok tasks)
  rw [h]
  rfl

/-- Loading does not change an existing file. -/
theorem load_tasks_fst (fs : FileState) (h : fs ≠ FileState.missing) :
    (load_tasks fs).1 = fs := by
  match fs with
  | FileState.missing => exact absurd rfl h
  | FileState.invalid => rfl
  | FileState.content j =>
    match j with
    | Json.null | Json.bool _ | Json.num _ | Json.str _ | Json.arr _ | Json.obj _ => rfl

theorem parse_id_eq_ok (s : String) (i : Int) :
    parse_id s = Except.ok i ↔ 0 < i ∧ pyIntOfString? s = some i := by
  unfold parse_id
  match h : pyIntOfString? s with
  | none => simp
  | some j =>
    by_cases hj : j ≤ 0
    · simp only [if_pos hj]
      constructor
      · intro hc; cases hc
      · rintro ⟨hi, hs⟩
        injection hs with hs; omega
    · simp only [if_neg hj]
      constructor
      · intro hc; injection hc with hc; subst hc; exact ⟨by omega, rfl⟩
      · rintro ⟨hi, hs⟩; injection hs with hs; subst hs; rfl

theorem parse_id_eq_error (s : String) :
    parse_id s = Except.error CmdErr.invalidId ↔
      ¬ ∃ i : Int, 0 < i ∧ pyIntOfString? s = some i := by
  unfold parse_id
  match h : pyIntOfString? s with
  | none => simp
  | some j =>
    by_cases hj : j ≤ 0
    · simp only [if_pos hj]
      simp only [true_iff]
      rintro ⟨i, hi, hs⟩
      injection hs with hs; omega
    · simp only [if_neg hj]
      constructor
      · intro hc; cases hc
      · intro hc; exact absurd ⟨j, by omega, rfl⟩ hc

/-- Parsing either succeeds on a positive integer token or fails with
`invalidId`. -/
theorem parse_id_cases (s : String) :
    (∃ i : Int, 0 < i ∧ pyIntOfString? s = some i ∧ parse_id s = Except.ok i) ∨
      ((¬ ∃ i : Int, 0 < i ∧ pyIntOfString? s = some i) ∧
        parse_id s = Except.error CmdErr.invalidId) := by
  unfold parse_id
  match h : pyIntOfString? s with
  | none => right; simp
  | some j =>
    by_cases hj : j ≤ 0
    · right
      refine ⟨?_, by simp [hj]⟩
      rintro ⟨i, hi, hs⟩; injection hs with hs; omega
    · left; exact ⟨j, by omega, rfl, by simp [hj]⟩

theorem find_task_eq_none (tasks : List Dict) (i : Int) :
    find_task tasks i = none ↔
      ∀ t ∈ tasks, pyEqInt (getKey t "id") i = false := by
  induction tasks with
  | nil => simp [find_task]
  | cons t rest ih =>
    by_cases h : pyEqInt (getKey t "id") i = true
    · simp [find_task, h]
    · have hf : pyEqInt (getKey t "id") i = false := by simpa using h
      rw [find_task, if_neg h, ih]
      constructor
      · intro hall u hu
        rcases List.mem_cons.mp hu with hu | hu
        · subst hu; exact hf
        · exact hall u hu
      · intro hall u hu; exact hall u (List.mem_cons_of_mem t hu)

theorem find_task_eq_some (tasks : List Dict) (i : Int) (t : Dict)
    (h : find_task tasks i = some t) :
    ∃ pre post, tasks = pre ++ t :: post ∧
      (∀ u ∈ pre, pyEqInt (getKey u "id") i = false) ∧
      pyEqInt (getKey t "id") i = true := by
  induction tasks with
  | nil => cases h
  | cons t0 rest ih =>
    by_cases h0 : pyEqInt (getKey t0 "id") i
    · rw [find_task, if_pos h0] at h
      injection h with h; subst h
      exact ⟨[], rest, rfl, by simp, h0⟩
    · rw [find_task, if_neg (by simp [h0])] at h
      obtain ⟨pre, post, heq, hpre, ht⟩ := ih h
      refine ⟨t0 :: pre, post, by simp [heq], ?_, ht⟩
      intro u hu
      rcases List.mem_cons.mp hu with hu | hu
      · subst hu; simp [h0]
      · exact hpre u hu

theorem updateFirst_append (f : Dict → Dict) (pre post : List Dict)
    (t : Dict) (i : Int)
    (hpre : ∀ u ∈ pre, pyEqInt (getKey u "id") i = false)
    (ht : pyEqInt (getKey t "id") i = true) :
    updateFirst f (pre ++ t :: post) i = pre ++ f t :: post := by
  induction pre with
  | nil => simp [updateFirst, ht]
  | cons u rest ih =>
    have hu : pyEqInt (getKey u "id") i = false := hpre u (List.mem_cons_self u rest)
    have hih := ih (fun v hv => hpre v (List.mem_cons_of_mem u hv))
    show (if pyEqInt (getKey u "id") i = true then f u :: (rest ++ t :: post)
      else u :: updateFirst f (rest ++ t :: post) i) = u :: (rest ++ f t :: post)
    rw [hu, hih]
    simp

theorem filter_no_match (l : List Dict) (i : Int)
    (h : ∀ u ∈ l, pyEqInt (getKey u "id") i = false) :
    l.filter (fun t => !(pyEqInt (getKey t "id") i)) = l := by
  apply List.filter_eq_self.mpr
  intro u hu; simp [h u hu]

/-- A well-formed task stores its id as a plain integer field. -/
theorem wf_idField (t : Dict) (hwf : wfTask t) :
    ∃ n : Int, 0 < n ∧ getKey t "id" = some (Json.num n) ∧ idOf? t = some n := by
  obtain ⟨n, hn, hpos⟩ := hwf
  refine ⟨n, hpos, ?_, hn⟩
  unfold idOf? at hn
  match hk : getKey t "id" with
  | some (Json.num m) => rw [hk] at hn; injection hn with hn; subst hn; rfl
  | some Json.null | some (Json.bool _) | some (Json.str _)
  | some (Json.arr _) | some (Json.obj _) => rw [hk] at hn; cases hn
  | none => rw [hk] at hn; cases hn

/-- A well-formed task's id field is a plain integer, so Python `==`
against an int agrees with `idOf?`. -/
theorem wf_pyEqInt (t : Dict) (hwf : wfTask t) (i : Int) :
    pyEqInt (getKey t "id") i = true ↔ idOf? t = some i := by
  obtain ⟨n, _, hk, hid⟩ := wf_idField t hwf
  rw [hk, hid]
  simp [pyEqInt, asInt?]

/-- The folding step inside `next_id`. -/
def nextIdStep (max_id : Int) (t : Dict) : Int :=
  match (getKey t "id").bind asInt? with
  | some tid => if tid > max_id then tid else max_id
  | none => max_id

theorem next_id_eq_foldl (tasks : List Dict) :
    next_id tasks = tasks.foldl nextIdStep 0 + 1 := rfl

theorem foldr_max_acc (l : List Int) (a b : Int) :
    l.foldr max (max a b) = max b (l.foldr max a) := by
  induction l with
  | nil => simp [max_comm]
  | cons c rest ih =>
    simp only [List.foldr_cons, ih]
    rw [max_left_comm]

theorem foldl_max_eq_foldr (l : List Int) (a : Int) :
    l.foldl max a = l.foldr max a := by
  induction l generalizing a with
  | nil => rfl
  | cons c rest ih =>
    simp only [List.foldl_cons, List.foldr_cons, ih, foldr_max_acc]

theorem nextIdStep_wf (m : Int) (t : Dict) (hwf : wfTask t) (n : Int)
    (hid : idOf? t = some n) : nextIdStep m t = max m n := by
  obtain ⟨n2, _, hk, hid2⟩ := wf_idField t hwf
  rw [hid] at hid2; injection hid2 with hid2; subst hid2
  unfold nextIdStep
  rw [hk]
  show (if n > m then n else m) = max m n
  by_cases h : n > m
  · rw [if_pos h]; exact (max_eq_right (le_of_lt h)).symm
  · rw [if_neg h]; exact (max_eq_left (by omega)).symm

/-- Under well-formedness, `next_id` computes the spec's
`1 + max(existing ids, default 0)`. -/
theorem next_id_eq_specNextId (tasks : List Dict)
    (hwf : ∀ t ∈ tasks, wfTask t) : next_id tasks = specNextId tasks := by
  have key : ∀ (l : List Dict) (a : Int), (∀ t ∈ l, wfTask t) →
      l.foldl nextIdStep a = (l.filterMap idOf?).foldl max a := by
    intro l
    induction l with
    | nil => intro a _; rfl
    | cons t rest ih =>
      intro a hw
      have hwt : wfTask t := hw t (List.mem_cons_self t rest)
      obtain ⟨n, _, hk, hid⟩ := wf_idField t hwt
      simp only [List.foldl_cons, List.filterMap_cons, hid]
      rw [nextIdStep_wf a t hwt n hid]
      exact ih (max a n) (fun u hu => hw u (List.mem_cons_of_mem t hu))
  rw [next_id_eq_foldl, key tasks 0 hwf, foldl_max_eq_foldr]
  unfold specNextId
  omega

theorem wf_sortKey (t : Dict) (hwf : wfTask t) :
    idOf? t = some (sortKey t) := by
  obtain ⟨n, _, hk, hid⟩ := wf_idField t hwf
  rw [hid]
  unfold sortKey
  rw [hk]
  simp [asInt?]

/-- Appending the freshly numbered task raises `next_id` by exactly one. -/
theorem next_id_append_mkTask (tasks : List Dict) (d ts : String) :
    next_id (tasks ++ [mkTask (next_id tasks) d ts]) = next_id tasks + 1 := by
  have h1 : next_id tasks = tasks.foldl nextIdStep 0 + 1 := rfl
  have h2 : next_id (tasks ++ [mkTask (next_id tasks) d ts])
      = nextIdStep (tasks.foldl nextIdStep 0) (mkTask (next_id tasks) d ts) + 1 := by
    rw [next_id_eq_foldl, List.foldl_append]
    rfl
  have h3 : nextIdStep (tasks.foldl nextIdStep 0) (mkTask (next_id tasks) d ts)
      = next_id tasks := by
    unfold nextIdStep
    show (if next_id tasks > tasks.foldl nextIdStep 0 then next_id tasks
      else tasks.foldl nextIdStep 0) = next_id tasks
    rw [if_pos (by rw [h1]; omega)]
  rw [h2, h3]

theorem cmd_add_empty (args : List String) (ts : String) (fs : FileState)
    (hargs : args ≠ []) (hd : pyStrip (joinSpace args) = "") :
    cmd_add args ts fs = (fs, Except.error CmdErr.emptyInput) := by
  unfold cmd_add
  rw [if_neg (fun hlt => hargs (List.length_eq_zero.mp (Nat.lt_one_iff.mp hlt)))]
  dsimp only
  rw [if_pos hd]

theorem cmd_add_ok (args : List String) (ts : String) (fs : FileState)
    (tasks : List Dict) (hload : load_tasks fs = (fs, Except.ok tasks))
    (hargs : args ≠ []) (hd : pyStrip (joinSpace args) ≠ "") :
    cmd_add args ts fs =
      (FileState.content (save_tasks (tasks ++
        [mkTask (next_id tasks) (pyStrip (joinSpace args)) ts])),
        Except.ok (next_id tasks)) := by
  unfold cmd_add
  rw [if_neg (fun hlt => hargs (List.length_eq_zero.mp (Nat.lt_one_iff.mp hlt)))]
  dsimp only
  rw [if_neg hd, hload]

end TaskCli

namespace TaskCli

/-- For add-only traces started from a saved collection, every assigned id
is at least `next_id` of the start state, and the assigned ids are strictly
increasing. -/
theorem runOps_addOnly_bound (ops : List Op) (hops : addOnly ops) :
    ∀ tasks : List Dict,
      (∀ i ∈ (runOps (FileState.content (save_tasks tasks)) ops).2, next_id tasks ≤ i) ∧
      ((runOps (FileState.content (save_tasks tasks)) ops).2).Pairwise (· < ·) := by
  induction ops with
  | nil =>
    intro tasks
    exact ⟨fun i hi => absurd hi (List.not_mem_nil i), List.Pairwise.nil⟩
  | cons op rest ih =>
    intro tasks
    have hop : isAdd op := hops op (List.mem_cons_self _ _)
    match op with
    | Op.del s => exact absurd hop (by simp [isAdd])
    | Op.add d ts =>
      have hrest : addOnly rest := fun o ho => hops o (List.mem_cons_of_mem _ ho)
      by_cases hd : pyStrip (joinSpace [d]) = ""
      · have hcmd := cmd_add_empty [d] ts (FileState.content (save_tasks tasks))
          (by simp) hd
        have hstep : runOps (FileState.content (save_tasks tasks)) (Op.add d ts :: rest)
            = runOps (FileState.content (save_tasks tasks)) rest := by
          simp only [runOps, applyOp, assignedId, hcmd]
          rfl
        rw [hstep]
        exact ih hrest tasks
      · have hcmd := cmd_add_ok [d] ts (FileState.content (save_tasks tasks)) tasks
          (load_save_tasks tasks) (by simp) hd
        have hstep : runOps (FileState.content (save_tasks tasks)) (Op.add d ts :: rest)
            = ((runOps (FileState.content (save_tasks
                (tasks ++ [mkTask (next_id tasks) (pyStrip (joinSpace [d])) ts]))) rest).1,
              next_id tasks ::
                (runOps (FileState.content (save_tasks
                  (tasks ++ [mkTask (next_id tasks) (pyStrip (joinSpace [d])) ts]))) rest).2) := by
          simp only [runOps, applyOp, assignedId, hcmd]
          rfl
        rw [hstep]
        obtain ⟨ihb, ihp⟩ := ih hrest
          (tasks ++ [mkTask (next_id tasks) (pyStrip (joinSpace [d])) ts])
        rw [next_id_append_mkTask] at ihb
        constructor
        · intro i hi
          rcases List.mem_cons.mp hi with hi | hi
          · omega
          · have := ihb i hi; omega
        · refine List.Pairwise.cons ?_ ihp
          intro j hj
          have := ihb j hj; omega

end TaskCli

namespace TaskCli

/-! ### Claim C1 -/

/-- C1 (counterexample): the claim "ids assigned by `add` are strictly
increasing over time and an id, once assigned, is never assigned again,
even interleaved with `delete`" is false: starting from the empty
collection, `add; add; delete 2; add` assigns the ids 1, 2, 2 — deleting
the task with the current maximum id makes `next_id` hand the same id out
again. -/
theorem c1_counterexample_id_reused :
    (runOps emptyDb [Op.add "a" "T", Op.add "b" "T", Op.del "2", Op.add "c" "T"]).2
      = [1, 2, 2] ∧
    ¬ ((runOps emptyDb
        [Op.add "a" "T", Op.add "b" "T", Op.del "2", Op.add "c" "T"]).2).Pairwise
        (· < ·) := by
  refine ⟨rfl, ?_⟩
  rw [show (runOps emptyDb
      [Op.add "a" "T", Op.add "b" "T", Op.del "2", Op.add "c" "T"]).2 = [1, 2, 2] from rfl]
  intro h
  rcases List.pairwise_cons.mp h with ⟨_, h2⟩
  rcases List.pairwise_cons.mp h2 with ⟨h3, _⟩
  have := h3 2 (by simp)
  omega

/-- C1 (amended): for every sequence of `add` operations (no deletes)
starting from the empty collection, the ids assigned by the successful adds
are strictly increasing, hence pairwise distinct; after a delete of the
current maximum id, the freed id can be reassigned (see the
counterexample). -/
theorem c1_addOnly_ids_strictly_increasing (ops : List Op) (hops : addOnly ops) :
    ((runOps emptyDb ops).2).Pairwise (· < ·) :=
  (runOps_addOnly_bound ops hops []).2

/-- Witness for C1 (amended) at a concrete add-only trace. -/
theorem c1_addOnly_ids_strictly_increasing_witness :
    ((runOps emptyDb [Op.add "x" "T", Op.add "y" "U"]).2).Pairwise (· < ·) :=
  c1_addOnly_ids_strictly_increasing [Op.add "x" "T", Op.add "y" "U"] (by decide)

/-! ### Claim C2 -/

/-- C2: on a well-formed collection, `add` with a description that does not
strip to empty appends exactly one record at the end of the collection and
changes nothing else; the new record carries id
`1 + max(existing ids, default 0)` (which is returned), the stripped
description, status `"todo"`, and `createdAt = updatedAt = ts`, the current
timestamp. -/
theorem c2_add_appends_fresh_record (fs : FileState) (tasks : List Dict)
    (d ts : String) (hload : load_tasks fs = (fs, Except.ok tasks))
    (hwf : WfTasks tasks) (hd : pyStrip d ≠ "") :
    cmd_add [d] ts fs =
      (FileState.content (save_tasks
        (tasks ++ [mkTask (specNextId tasks) (pyStrip d) ts])),
        Except.ok (specNextId tasks)) ∧
      getKey (mkTask (specNextId tasks) (pyStrip d) ts) "id"
        = some (Json.num (specNextId tasks)) ∧
      getKey (mkTask (specNextId tasks) (pyStrip d) ts) "description"
        = some (Json.str (pyStrip d)) ∧
      getKey (mkTask (specNextId tasks) (pyStrip d) ts) "status"
        = some (Json.str "todo") ∧
      getKey (mkTask (specNextId tasks) (pyStrip d) ts) "createdAt"
        = some (Json.str ts) ∧
      getKey (mkTask (specNextId tasks) (pyStrip d) ts) "updatedAt"
        = some (Json.str ts) := by
  refine ⟨?_, rfl, rfl, rfl, rfl, rfl⟩
  have h := cmd_add_ok [d] ts fs tasks hload (by simp) hd
  rw [next_id_eq_specNextId tasks hwf.1] at h
  exact h

/-- Witness for C2 on the empty collection. -/
theorem c2_add_appends_fresh_record_witness :
    (cmd_add [" hi "] "T" emptyDb).2 = Except.ok (specNextId []) := by
  rw [(c2_add_appends_fresh_record emptyDb [] " hi " "T" rfl (by decide)
    (by decide)).1]

end TaskCli

namespace TaskCli

/-! ### Characterization of `cmd_update`, `cmd_delete`, `cmd_mark` -/

theorem cmd_update_parse_err (s d ts : String) (fs : FileState) (e : CmdErr)
    (hp : parse_id s = Except.error e) :
    cmd_update [s, d] ts fs = (fs, Except.error e) := by
  unfold cmd_update
  rw [if_neg (by simp), show ([s, d].headD "") = s from rfl, hp]

theorem cmd_update_empty (s d ts : String) (fs : FileState) (i : Int)
    (hp : parse_id s = Except.ok i) (hd : pyStrip d = "") :
    cmd_update [s, d] ts fs = (fs, Except.error CmdErr.emptyInput) := by
  unfold cmd_update
  rw [if_neg (by simp), show ([s, d].headD "") = s from rfl, hp]
  dsimp only
  rw [if_pos (show pyStrip (joinSpace [s, d].tail) = "" from hd)]

theorem cmd_update_notFound (s d ts : String) (fs : FileState)
    (tasks : List Dict) (i : Int)
    (hload : load_tasks fs = (fs, Except.ok tasks))
    (hp : parse_id s = Except.ok i) (hd : pyStrip d ≠ "")
    (hfind : find_task tasks i = none) :
    cmd_update [s, d] ts fs = (fs, Except.error CmdErr.notFound) := by
  unfold cmd_update
  rw [if_neg (by simp), show ([s, d].headD "") = s from rfl, hp]
  dsimp only
  rw [if_neg (show ¬ pyStrip (joinSpace [s, d].tail) = "" from hd), hload]
  dsimp only
  rw [hfind]

theorem cmd_update_ok (s d ts : String) (fs : FileState)
    (tasks : List Dict) (i : Int) (t0 : Dict)
    (hload : load_tasks fs = (fs, Except.ok tasks))
    (hp : parse_id s = Except.ok i) (hd : pyStrip d ≠ "")
    (hfind : find_task tasks i = some t0) :
    cmd_update [s, d] ts fs =
      (FileState.content (save_tasks (updateFirst (fun t =>
        setKey (setKey t "description" (Json.str (pyStrip d)))
          "updatedAt" (Json.str ts)) tasks i)), Except.ok ()) := by
  unfold cmd_update
  rw [if_neg (by simp), show ([s, d].headD "") = s from rfl, hp]
  dsimp only
  rw [if_neg (show ¬ pyStrip (joinSpace [s, d].tail) = "" from hd), hload]
  dsimp only
  rw [hfind]
  rfl

theorem cmd_delete_parse_err (s : String) (fs : FileState) (e : CmdErr)
    (hp : parse_id s = Except.error e) :
    cmd_delete [s] fs = (fs, Except.error e) := by
  unfold cmd_delete
  rw [if_neg (by simp), show ([s].headD "") = s from rfl, hp]

theorem cmd_delete_notFound (s : String) (fs : FileState)
    (tasks : List Dict) (i : Int)
    (hload : load_tasks fs = (fs, Except.ok tasks))
    (hp : parse_id s = Except.ok i)
    (hfind : ∀ t ∈ tasks, pyEqInt (getKey t "id") i = false) :
    cmd_delete [s] fs = (fs, Except.error CmdErr.notFound) := by
  unfold cmd_delete
  rw [if_neg (by simp), show ([s].headD "") = s from rfl, hp, hload]
  dsimp only
  rw [filter_no_match tasks i hfind, if_pos rfl]

theorem cmd_delete_ok (s : String) (fs : FileState)
    (pre post : List Dict) (t0 : Dict) (i : Int)
    (hload : load_tasks fs = (fs, Except.ok (pre ++ t0 :: post)))
    (hp : parse_id s = Except.ok i)
    (hpre : ∀ u ∈ pre, pyEqInt (getKey u "id") i = false)
    (ht : pyEqInt (getKey t0 "id") i = true)
    (hpost : ∀ u ∈ post, pyEqInt (getKey u "id") i = false) :
    cmd_delete [s] fs =
      (FileState.content (save_tasks (pre ++ post)), Except.ok ()) := by
  unfold cmd_delete
  rw [if_neg (by simp), show ([s].headD "") = s from rfl, hp, hload]
  dsimp only
  have hfil : (pre ++ t0 :: post).filter (fun t => !(pyEqInt (getKey t "id") i))
      = pre ++ post := by
    rw [List.filter_append, filter_no_match pre i hpre]
    rw [show (t0 :: post).filter (fun t => !(pyEqInt (getKey t "id") i))
      = post.filter (fun t => !(pyEqInt (getKey t "id") i)) from by
        rw [List.filter_cons]
        simp [ht]]
    rw [filter_no_match post i hpost]
  rw [hfil]
  rw [if_neg (by
    simp only [List.length_append, List.length_cons]
    omega)]

theorem cmd_mark_parse_err (st s ts : String) (fs : FileState) (e : CmdErr)
    (hp : parse_id s = Except.error e) :
    cmd_mark st [s] ts fs = (fs, Except.error e) := by
  unfold cmd_mark
  rw [if_neg (by simp), show ([s].headD "") = s from rfl, hp]

theorem cmd_mark_notFound (st s ts : String) (fs : FileState)
    (tasks : List Dict) (i : Int)
    (hload : load_tasks fs = (fs, Except.ok tasks))
    (hp : parse_id s = Except.ok i)
    (hfind : find_task tasks i = none) :
    cmd_mark st [s] ts fs = (fs, Except.error CmdErr.notFound) := by
  unfold cmd_mark
  rw [if_neg (by simp), show ([s].headD "") = s from rfl, hp]
  dsimp only
  rw [hload]
  dsimp only
  rw [hfind]

theorem cmd_mark_ok (st s ts : String) (fs : FileState)
    (tasks : List Dict) (i : Int) (t0 : Dict)
    (hload : load_tasks fs = (fs, Except.ok tasks))
    (hp : parse_id s = Except.ok i)
    (hfind : find_task tasks i = some t0) :
    cmd_mark st [s] ts fs =
      (FileState.content (save_tasks (updateFirst
        (fun t => set_status t st ts) tasks i)), Except.ok ()) := by
  unfold cmd_mark
  rw [if_neg (by simp), show ([s].headD "") = s from rfl, hp]
  dsimp only
  rw [hload]
  dsimp only
  rw [hfind]

/-- Inside a well-formed collection, nothing after the first task matching
id `i` matches it as well. -/
theorem wf_post_no_match (pre post : List Dict) (t0 : Dict) (i : Int)
    (hwf : WfTasks (pre ++ t0 :: post))
    (ht : pyEqInt (getKey t0 "id") i = true) :
    ∀ u ∈ post, pyEqInt (getKey u "id") i = false := by
  intro u hu
  by_contra hne
  have hu_true : pyEqInt (getKey u "id") i = true := by simpa using hne
  obtain ⟨hall, hnd⟩ := hwf
  have hwt0 : wfTask t0 := hall t0 (by simp)
  have hwu : wfTask u := hall u (by simp [hu])
  have hid0 : idOf? t0 = some i := (wf_pyEqInt t0 hwt0 i).mp ht
  have hidu : idOf? u = some i := (wf_pyEqInt u hwu i).mp hu_true
  rw [List.filterMap_append] at hnd
  have h2 := hnd.of_append_right
  rw [List.filterMap_cons_some hid0] at h2
  exact (List.nodup_cons.mp h2).1 (List.mem_filterMap.mpr ⟨u, hu, hidu⟩)

end TaskCli

namespace TaskCli

/-- A delete whose id is found succeeds (no well-formedness needed: the
filter removes at least the found task, so the length shrinks). -/
theorem cmd_delete_found_ok (s : String) (fs : FileState)
    (tasks : List Dict) (i : Int) (t0 : Dict)
    (hload : load_tasks fs = (fs, Except.ok tasks))
    (hp : parse_id s = Except.ok i)
    (hfind : find_task tasks i = some t0) :
    (cmd_delete [s] fs).2 = Except.ok () := by
  obtain ⟨pre, post, heq, hpre, ht⟩ := find_task_eq_some tasks i t0 hfind
  have hmem : t0 ∈ tasks := by
    rw [heq]; exact List.mem_append_right pre (List.mem_cons_self _ _)
  unfold cmd_delete
  rw [if_neg (by simp), show ([s].headD "") = s from rfl, hp, hload]
  dsimp only
  rw [if_neg (fun hlen => by
    have := List.filter_length_eq_length.mp hlen t0 hmem
    rw [ht] at this
    cases this)]

/-! ### Claim C3 -/

/-- C3 (counterexample): the claim's per-condition iffs ignore validation
order.  With id token `"0"` and description `" "` (which strips to empty),
`update` fails with `InvalidId`, not `EmptyInput`, although the claim's
condition for `EmptyInput` (description strips to empty) holds. -/
theorem c3_counterexample_precedence :
    pyStrip " " = "" ∧
    (cmd_update ["0", " "] "T" emptyDb).2 = Except.error CmdErr.invalidId ∧
    (cmd_update ["0", " "] "T" emptyDb).2 ≠ Except.error CmdErr.emptyInput := by
  refine ⟨rfl, rfl, ?_⟩
  intro h
  rw [show (cmd_update ["0", " "] "T" emptyDb).2
    = Except.error CmdErr.invalidId from rfl] at h
  injection h with h
  cases h


/-- C3 (amended): the validations run in a fixed order — id token first,
then description, then existence.  `add` fails with `EmptyInput` iff the
description strips to empty; `update`/`delete`/`mark-*` fail with
`InvalidId` iff the id token is not a positive integer; `update` fails with
`EmptyInput` iff the id token is valid and the new description strips to
empty; each fails with `NotFound` iff the id token is valid, (for `update`)
the description does not strip to empty, and no record's id field compares
equal to the parsed id. -/
theorem c3_validation_outcomes (fs : FileState) (tasks : List Dict)
    (hload : load_tasks fs = (fs, Except.ok tasks)) :
    ∀ s d ts : String,
      ((cmd_add [d] ts fs).2 = Except.error CmdErr.emptyInput ↔ pyStrip d = "") ∧
      ((cmd_update [s, d] ts fs).2 = Except.error CmdErr.invalidId ↔
        ¬ ∃ i : Int, 0 < i ∧ pyIntOfString? s = some i) ∧
      ((cmd_update [s, d] ts fs).2 = Except.error CmdErr.emptyInput ↔
        (∃ i : Int, 0 < i ∧ pyIntOfString? s = some i) ∧ pyStrip d = "") ∧
      ((cmd_update [s, d] ts fs).2 = Except.error CmdErr.notFound ↔
        (∃ i : Int, 0 < i ∧ pyIntOfString? s = some i ∧
          ∀ t ∈ tasks, pyEqInt (getKey t "id") i = false) ∧ pyStrip d ≠ "") ∧
      ((cmd_delete [s] fs).2 = Except.error CmdErr.invalidId ↔
        ¬ ∃ i : Int, 0 < i ∧ pyIntOfString? s = some i) ∧
      ((cmd_delete [s] fs).2 = Except.error CmdErr.notFound ↔
        ∃ i : Int, 0 < i ∧ pyIntOfString? s = some i ∧
          ∀ t ∈ tasks, pyEqInt (getKey t "id") i = false) ∧
      ((cmd_mark_in_progress [s] ts fs).2 = Except.error CmdErr.invalidId ↔
        ¬ ∃ i : Int, 0 < i ∧ pyIntOfString? s = some i) ∧
      ((cmd_mark_in_progress [s] ts fs).2 = Except.error CmdErr.notFound ↔
        ∃ i : Int, 0 < i ∧ pyIntOfString? s = some i ∧
          ∀ t ∈ tasks, pyEqInt (getKey t "id") i = false) ∧
      ((cmd_mark_done [s] ts fs).2 = Except.error CmdErr.invalidId ↔
        ¬ ∃ i : Int, 0 < i ∧ pyIntOfString? s = some i) ∧
      ((cmd_mark_done [s] ts fs).2 = Except.error CmdErr.notFound ↔
        ∃ i : Int, 0 < i ∧ pyIntOfString? s = some i ∧
          ∀ t ∈ tasks, pyEqInt (getKey t "id") i = false) := by
  intro s d ts
  have haddE : pyStrip d = "" →
      (cmd_add [d] ts fs).2 = Except.error CmdErr.emptyInput := fun hd => by
    rw [cmd_add_empty [d] ts fs (by simp) hd]
  have haddN : pyStrip d ≠ "" →
      (cmd_add [d] ts fs).2 = Except.ok (next_id tasks) := fun hd => by
    rw [cmd_add_ok [d] ts fs tasks hload (by simp) hd]
  rcases parse_id_cases s with ⟨i, hpos, hs, hok⟩ | ⟨hno, herr⟩
  · have hEX : ∃ j : Int, 0 < j ∧ pyIntOfString? s = some j := ⟨i, hpos, hs⟩
    rcases hfind : find_task tasks i with _ | t0
    · -- valid token, id not present
      have hall := (find_task_eq_none tasks i).mp hfind
      have hEXN : ∃ j : Int, 0 < j ∧ pyIntOfString? s = some j ∧
          ∀ t ∈ tasks, pyEqInt (getKey t "id") j = false := ⟨i, hpos, hs, hall⟩
      have hdel := cmd_delete_notFound s fs tasks i hload hok hall
      have hm1 : cmd_mark_in_progress [s] ts fs = (fs, Except.error CmdErr.notFound) :=
        cmd_mark_notFound "in-progress" s ts fs tasks i hload hok hfind
      have hm2 : cmd_mark_done [s] ts fs = (fs, Except.error CmdErr.notFound) :=
        cmd_mark_notFound "done" s ts fs tasks i hload hok hfind
      by_cases hd : pyStrip d = ""
      · have hupd := cmd_update_empty s d ts fs i hok hd
        exact ⟨iff_of_true (haddE hd) hd,
          iff_of_false (by rw [hupd]; simp) (not_not_intro hEX),
          iff_of_true (by rw [hupd]) ⟨hEX, hd⟩,
          iff_of_false (by rw [hupd]; simp) (fun h2 => h2.2 hd),
          iff_of_false (by rw [hdel]; simp) (not_not_intro hEX),
          iff_of_true (by rw [hdel]) hEXN,
          iff_of_false (by rw [hm1]; simp) (not_not_intro hEX),
          iff_of_true (by rw [hm1]) hEXN,
          iff_of_false (by rw [hm2]; simp) (not_not_intro hEX),
          iff_of_true (by rw [hm2]) hEXN⟩
      · have hupd := cmd_update_notFound s d ts fs tasks i hload hok hd hfind
        exact ⟨iff_of_false (by rw [haddN hd]; simp) hd,
          iff_of_false (by rw [hupd]; simp) (not_not_intro hEX),
          iff_of_false (by rw [hupd]; simp) (fun h2 => hd h2.2),
          iff_of_true (by rw [hupd]) ⟨hEXN, hd⟩,
          iff_of_false (by rw [hdel]; simp) (not_not_intro hEX),
          iff_of_true (by rw [hdel]) hEXN,
          iff_of_false (by rw [hm1]; simp) (not_not_intro hEX),
          iff_of_true (by rw [hm1]) hEXN,
          iff_of_false (by rw [hm2]; simp) (not_not_intro hEX),
          iff_of_true (by rw [hm2]) hEXN⟩
    · -- valid token, id present
      have hnEXN : ¬ ∃ j : Int, 0 < j ∧ pyIntOfString? s = some j ∧
          ∀ t ∈ tasks, pyEqInt (getKey t "id") j = false := by
        rintro ⟨j, _, hsj, hallj⟩
        rw [hs] at hsj
        injection hsj with hsj
        subst hsj
        rw [(find_task_eq_none tasks i).mpr hallj] at hfind
        cases hfind
      have hdel := cmd_delete_found_ok s fs tasks i t0 hload hok hfind
      have hm1 : (cmd_mark_in_progress [s] ts fs).2 = Except.ok () :=
        congrArg Prod.snd (cmd_mark_ok "in-progress" s ts fs tasks i t0 hload hok hfind)
      have hm2 : (cmd_mark_done [s] ts fs).2 = Except.ok () :=
        congrArg Prod.snd (cmd_mark_ok "done" s ts fs tasks i t0 hload hok hfind)
      by_cases hd : pyStrip d = ""
      · have hupd := cmd_update_empty s d ts fs i hok hd
        exact ⟨iff_of_true (haddE hd) hd,
          iff_of_false (by rw [hupd]; simp) (not_not_intro hEX),
          iff_of_true (by rw [hupd]) ⟨hEX, hd⟩,
          iff_of_false (by rw [hupd]; simp) (fun h2 => h2.2 hd),
          iff_of_false (by rw [hdel]; simp) (not_not_intro hEX),
          iff_of_false (by rw [hdel]; simp) hnEXN,
          iff_of_false (by rw [hm1]; simp) (not_not_intro hEX),
          iff_of_false (by rw [hm1]; simp) hnEXN,
          iff_of_false (by rw [hm2]; simp) (not_not_intro hEX),
          iff_of_false (by rw [hm2]; simp) hnEXN⟩
      · have hupd := congrArg Prod.snd
          (cmd_update_ok s d ts fs tasks i t0 hload hok hd hfind)
        exact ⟨iff_of_false (by rw [haddN hd]; simp) hd,
          iff_of_false (by rw [hupd]; simp) (not_not_intro hEX),
          iff_of_false (by rw [hupd]; simp) (fun h2 => hd h2.2),
          iff_of_false (by rw [hupd]; simp) (fun h2 => hnEXN h2.1),
          iff_of_false (by rw [hdel]; simp) (not_not_intro hEX),
          iff_of_false (by rw [hdel]; simp) hnEXN,
          iff_of_false (by rw [hm1]; simp) (not_not_intro hEX),
          iff_of_false (by rw [hm1]; simp) hnEXN,
          iff_of_false (by rw [hm2]; simp) (not_not_intro hEX),
          iff_of_false (by rw [hm2]; simp) hnEXN⟩
  · -- invalid token
    have hnEXN : ¬ ∃ j : Int, 0 < j ∧ pyIntOfString? s = some j ∧
        ∀ t ∈ tasks, pyEqInt (getKey t "id") j = false :=
      fun ⟨j, hj, hsj, _⟩ => hno ⟨j, hj, hsj⟩
    have hupd := cmd_update_parse_err s d ts fs CmdErr.invalidId herr
    have hdel := cmd_delete_parse_err s fs CmdErr.invalidId herr
    have hm1 : cmd_mark_in_progress [s] ts fs = (fs, Except.error CmdErr.invalidId) :=
      cmd_mark_parse_err "in-progress" s ts fs CmdErr.invalidId herr
    have hm2 : cmd_mark_done [s] ts fs = (fs, Except.error CmdErr.invalidId) :=
      cmd_mark_parse_err "done" s ts fs CmdErr.invalidId herr
    have hadd : (cmd_add [d] ts fs).2 = Except.error CmdErr.emptyInput ↔ pyStrip d = "" := by
      by_cases hd : pyStrip d = ""
      · exact iff_of_true (haddE hd) hd
      · exact iff_of_false (by rw [haddN hd]; simp) hd
    exact ⟨hadd,
      iff_of_true (by rw [hupd]) hno,
      iff_of_false (by rw [hupd]; simp) (fun h2 => hno h2.1),
      iff_of_false (by rw [hupd]; simp) (fun h2 => hnEXN h2.1),
      iff_of_true (by rw [hdel]) hno,
      iff_of_false (by rw [hdel]; simp) hnEXN,
      iff_of_true (by rw [hm1]) hno,
      iff_of_false (by rw [hm1]; simp) hnEXN,
      iff_of_true (by rw [hm2]) hno,
      iff_of_false (by rw [hm2]; simp) hnEXN⟩

/-- Witness for C3 (amended): on the empty collection, updating id 1 fails
with `NotFound`. -/
theorem c3_validation_outcomes_witness :
    (cmd_update ["1", "x"] "T" emptyDb).2 = Except.error CmdErr.notFound := by
  have h := c3_validation_outcomes emptyDb [] rfl "1" "x" "T"
  exact h.2.2.2.1.mpr ⟨⟨1, by decide, rfl, by simp⟩, by decide⟩

end TaskCli

namespace TaskCli

/-- Reading a key of a twice-updated dict where neither update touched it. -/
theorem getKey_set2_other (t : Dict) (k1 k2 k : String) (v1 v2 : Json)
    (h1 : k ≠ k1) (h2 : k ≠ k2) :
    getKey (setKey (setKey t k1 v1) k2 v2) k = getKey t k := by
  rw [getKey_setKey_other _ _ _ _ h2, getKey_setKey_other _ _ _ _ h1]

/-- Reading the first-updated key of a twice-updated dict. -/
theorem getKey_set2_first (t : Dict) (k1 k2 : String) (v1 v2 : Json)
    (h : k1 ≠ k2) :
    getKey (setKey (setKey t k1 v1) k2 v2) k1 = some v1 := by
  rw [getKey_setKey_other _ _ _ _ h, getKey_setKey_same]

/-! ### Claim C5 -/

/-- C5: on a well-formed collection containing the id, a successful
`update` replaces only the target's `description` and `updatedAt`, a
successful `mark-*` replaces only the target's `status` and `updatedAt`;
the target's `id` and `createdAt` (and, for update, `status`; for mark,
`description`) are untouched, and every other record and the insertion
order are unchanged. -/
theorem c5_update_mark_frame (fs : FileState) (tasks : List Dict)
    (s d ts : String) (i : Int) (t0 : Dict)
    (hload : load_tasks fs = (fs, Except.ok tasks)) (hwf : WfTasks tasks)
    (hp : parse_id s = Except.ok i) (hd : pyStrip d ≠ "")
    (hfind : find_task tasks i = some t0) :
    ∃ pre post,
      tasks = pre ++ t0 :: post ∧
      (∀ u ∈ pre, pyEqInt (getKey u "id") i = false) ∧
      (∀ u ∈ post, pyEqInt (getKey u "id") i = false) ∧
      cmd_update [s, d] ts fs =
        (FileState.content (save_tasks (pre ++
          setKey (setKey t0 "description" (Json.str (pyStrip d)))
            "updatedAt" (Json.str ts) :: post)), Except.ok ()) ∧
      getKey (setKey (setKey t0 "description" (Json.str (pyStrip d)))
          "updatedAt" (Json.str ts)) "description" = some (Json.str (pyStrip d)) ∧
      getKey (setKey (setKey t0 "description" (Json.str (pyStrip d)))
          "updatedAt" (Json.str ts)) "updatedAt" = some (Json.str ts) ∧
      getKey (setKey (setKey t0 "description" (Json.str (pyStrip d)))
          "updatedAt" (Json.str ts)) "id" = getKey t0 "id" ∧
      getKey (setKey (setKey t0 "description" (Json.str (pyStrip d)))
          "updatedAt" (Json.str ts)) "status" = getKey t0 "status" ∧
      getKey (setKey (setKey t0 "description" (Json.str (pyStrip d)))
          "updatedAt" (Json.str ts)) "createdAt" = getKey t0 "createdAt" ∧
      cmd_mark_in_progress [s] ts fs =
        (FileState.content (save_tasks (pre ++
          set_status t0 "in-progress" ts :: post)), Except.ok ()) ∧
      cmd_mark_done [s] ts fs =
        (FileState.content (save_tasks (pre ++
          set_status t0 "done" ts :: post)), Except.ok ()) ∧
      (∀ st ts2 : String,
        getKey (set_status t0 st ts2) "id" = getKey t0 "id" ∧
        getKey (set_status t0 st ts2) "createdAt" = getKey t0 "createdAt" ∧
        getKey (set_status t0 st ts2) "description" = getKey t0 "description" ∧
        getKey (set_status t0 st ts2) "updatedAt" = some (Json.str ts2)) := by
  obtain ⟨pre, post, heq, hpre, ht⟩ := find_task_eq_some tasks i t0 hfind
  have hpost : ∀ u ∈ post, pyEqInt (getKey u "id") i = false :=
    wf_post_no_match pre post t0 i (heq ▸ hwf) ht
  refine ⟨pre, post, heq, hpre, hpost, ?_, ?_, ?_, ?_, ?_, ?_, ?_, ?_, ?_⟩
  · rw [cmd_update_ok s d ts fs tasks i t0 hload hp hd hfind, heq,
      updateFirst_append _ pre post t0 i hpre ht]
  · exact getKey_set2_first t0 "description" "updatedAt" _ _ (by decide)
  · exact getKey_setKey_same _ _ _
  · exact getKey_set2_other t0 "description" "updatedAt" "id" _ _
      (by decide) (by decide)
  · exact getKey_set2_other t0 "description" "updatedAt" "status" _ _
      (by decide) (by decide)
  · exact getKey_set2_other t0 "description" "updatedAt" "createdAt" _ _
      (by decide) (by decide)
  · show cmd_mark "in-progress" [s] ts fs = _
    rw [cmd_mark_ok "in-progress" s ts fs tasks i t0 hload hp hfind, heq,
      updateFirst_append _ pre post t0 i hpre ht]
  · show cmd_mark "done" [s] ts fs = _
    rw [cmd_mark_ok "done" s ts fs tasks i t0 hload hp hfind, heq,
      updateFirst_append _ pre post t0 i hpre ht]
  · intro st ts2
    exact ⟨getKey_set2_other t0 "status" "updatedAt" "id" _ _ (by decide) (by decide),
      getKey_set2_other t0 "status" "updatedAt" "createdAt" _ _ (by decide) (by decide),
      getKey_set2_other t0 "status" "updatedAt" "description" _ _ (by decide) (by decide),
      getKey_setKey_same _ _ _⟩

/-- Witness for C5 on a one-task collection. -/
theorem c5_update_mark_frame_witness :
    (cmd_update ["1", "new"] "T1"
      (FileState.content (save_tasks [mkTask 1 "a" "T0"]))).2 = Except.ok () := by
  obtain ⟨pre, post, _, _, _, hupd, _⟩ :=
    c5_update_mark_frame (FileState.content (save_tasks [mkTask 1 "a" "T0"]))
      [mkTask 1 "a" "T0"] "1" "new" "T1" 1 (mkTask 1 "a" "T0")
      rfl (by decide) rfl (by decide) rfl
  rw [hupd]

/-! ### Claim C6 -/

/-- C6: `set_status` assigns exactly the given status value and refreshes
`updatedAt`, for any target status string and any current record state;
`mark-in-progress` and `mark-done` succeed on any existing id with no
hypothesis about the record's current status — transitions are
unrestricted, so records already `"done"` remain mutable and a status can
be reassigned to itself. -/
theorem c6_set_status_any_transition (fs : FileState) (tasks : List Dict)
    (s ts : String) (i : Int) (t0 : Dict)
    (hload : load_tasks fs = (fs, Except.ok tasks))
    (hp : parse_id s = Except.ok i)
    (hfind : find_task tasks i = some t0) :
    cmd_mark_in_progress [s] ts fs =
      (FileState.content (save_tasks (updateFirst
        (fun t => set_status t "in-progress" ts) tasks i)), Except.ok ()) ∧
    cmd_mark_done [s] ts fs =
      (FileState.content (save_tasks (updateFirst
        (fun t => set_status t "done" ts) tasks i)), Except.ok ()) ∧
    (∀ (t : Dict) (st ts2 : String),
      getKey (set_status t st ts2) "status" = some (Json.str st) ∧
      getKey (set_status t st ts2) "updatedAt" = some (Json.str ts2)) := by
  refine ⟨cmd_mark_ok "in-progress" s ts fs tasks i t0 hload hp hfind,
    cmd_mark_ok "done" s ts fs tasks i t0 hload hp hfind, ?_⟩
  intro t st ts2
  exact ⟨getKey_set2_first t "status" "updatedAt" _ _ (by decide),
    getKey_setKey_same _ _ _⟩

/-- Witness for C6: marking a task that is already `"done"` back to
`"in-progress"` succeeds. -/
theorem c6_set_status_any_transition_witness :
    (cmd_mark_in_progress ["1"] "T2"
      (FileState.content (save_tasks
        [set_status (mkTask 1 "a" "T0") "done" "T1"]))).2 = Except.ok () := by
  rw [(c6_set_status_any_transition
    (FileState.content (save_tasks [set_status (mkTask 1 "a" "T0") "done" "T1"]))
    [set_status (mkTask 1 "a" "T0") "done" "T1"] "1" "T2" 1
    (set_status (mkTask 1 "a" "T0") "done" "T1") rfl rfl rfl).1]

/-! ### Claim C7 -/

/-- C7: on a well-formed collection containing the id, `delete` removes
exactly the matching record, keeps every other record unchanged in the same
relative order, and the result contains no record with that id. -/
theorem c7_delete_removes_exactly_one (fs : FileState) (tasks : List Dict)
    (s : String) (i : Int) (t0 : Dict)
    (hload : load_tasks fs = (fs, Except.ok tasks)) (hwf : WfTasks tasks)
    (hp : parse_id s = Except.ok i)
    (hfind : find_task tasks i = some t0) :
    ∃ pre post,
      tasks = pre ++ t0 :: post ∧
      pyEqInt (getKey t0 "id") i = true ∧
      (∀ u ∈ pre, pyEqInt (getKey u "id") i = false) ∧
      (∀ u ∈ post, pyEqInt (getKey u "id") i = false) ∧
      cmd_delete [s] fs =
        (FileState.content (save_tasks (pre ++ post)), Except.ok ()) ∧
      find_task (pre ++ post) i = none := by
  obtain ⟨pre, post, heq, hpre, ht⟩ := find_task_eq_some tasks i t0 hfind
  have hpost : ∀ u ∈ post, pyEqInt (getKey u "id") i = false :=
    wf_post_no_match pre post t0 i (heq ▸ hwf) ht
  refine ⟨pre, post, heq, ht, hpre, hpost, ?_, ?_⟩
  · exact cmd_delete_ok s fs pre post t0 i (heq ▸ hload) hp hpre ht hpost
  · refine (find_task_eq_none (pre ++ post) i).mpr ?_
    intro u hu
    rcases List.mem_append.mp hu with hu | hu
    · exact hpre u hu
    · exact hpost u hu

/-- Witness for C7 on a two-task collection. -/
theorem c7_delete_removes_exactly_one_witness :
    (cmd_delete ["1"]
      (FileState.content (save_tasks [mkTask 1 "a" "T0", mkTask 2 "b" "T0"]))).2
      = Except.ok () := by
  obtain ⟨pre, post, _, _, _, _, hdel, _⟩ :=
    c7_delete_removes_exactly_one
      (FileState.content (save_tasks [mkTask 1 "a" "T0", mkTask 2 "b" "T0"]))
      [mkTask 1 "a" "T0", mkTask 2 "b" "T0"] "1" 1 (mkTask 1 "a" "T0")
      rfl (by decide) rfl rfl
  rw [hdel]

end TaskCli

namespace TaskCli

instance : IsTotal Dict (fun a b => sortKey a ≤ sortKey b) :=
  ⟨fun a b => Int.le_total (sortKey a) (sortKey b)⟩

instance : IsTrans Dict (fun a b => sortKey a ≤ sortKey b) :=
  ⟨fun _ _ _ h1 h2 => le_trans h1 h2⟩

/-! ### Claim C8 -/

/-- C8: `list` with a valid filter returns exactly the records whose status
equals the filter (as a permutation of that subset), sorted ascending by
id; `list` with no filter returns all records sorted ascending by id (an
empty result is an `ok` value, not an error); `list` fails with
`InvalidFilter` exactly when the normalized filter is not one of the three
statuses. -/
theorem c8_list_filter_sorted (fs : FileState) (tasks : List Dict)
    (hload : load_tasks fs = (fs, Except.ok tasks)) (hwf : WfTasks tasks) :
    (cmd_list [] fs = (fs, Except.ok (sortTasks tasks)) ∧
      (sortTasks tasks).Perm tasks ∧
      (sortTasks tasks).Pairwise (fun u v => sortKey u ≤ sortKey v) ∧
      ∀ t ∈ sortTasks tasks, idOf? t = some (sortKey t)) ∧
    (∀ a : String, pyLower (pyStrip a) ∈ VALID_STATUSES →
      cmd_list [a] fs = (fs, Except.ok (sortTasks (tasks.filter
        (fun t => pyEqStr (getKey t "status") (pyLower (pyStrip a)))))) ∧
      (sortTasks (tasks.filter
        (fun t => pyEqStr (getKey t "status") (pyLower (pyStrip a))))).Perm
        (tasks.filter (fun t => pyEqStr (getKey t "status") (pyLower (pyStrip a)))) ∧
      (sortTasks (tasks.filter
        (fun t => pyEqStr (getKey t "status") (pyLower (pyStrip a))))).Pairwise
        (fun u v => sortKey u ≤ sortKey v) ∧
      ∀ t ∈ sortTasks (tasks.filter
        (fun t => pyEqStr (getKey t "status") (pyLower (pyStrip a)))),
        idOf? t = some (sortKey t)) ∧
    (∀ a : String, pyLower (pyStrip a) ∉ VALID_STATUSES →
      cmd_list [a] fs = (fs, Except.error CmdErr.invalidFilter)) := by
  refine ⟨⟨?_, ?_, ?_, ?_⟩, ?_, ?_⟩
  · unfold cmd_list
    rw [hload]
  · exact List.perm_insertionSort _ tasks
  · exact List.sorted_insertionSort _ tasks
  · intro t ht
    exact wf_sortKey t (hwf.1 t ((List.perm_insertionSort _ tasks).subset ht))
  · intro a hmem
    refine ⟨?_, List.perm_insertionSort _ _, List.sorted_insertionSort _ _, ?_⟩
    · unfold cmd_list
      rw [hload]
      dsimp only
      rw [if_pos hmem]
    · intro t ht
      have ht2 := (List.perm_insertionSort _ _).subset ht
      exact wf_sortKey t (hwf.1 t (List.mem_filter.mp ht2).1)
  · intro a hmem
    unfold cmd_list
    rw [hload]
    dsimp only
    rw [if_neg hmem]

/-- Witness for C8: listing an empty collection with the `"done"` filter
returns an empty result, and a bogus filter is rejected. -/
theorem c8_list_filter_sorted_witness :
    cmd_list ["done"] emptyDb = (emptyDb, Except.ok []) ∧
    cmd_list ["bogus"] emptyDb = (emptyDb, Except.error CmdErr.invalidFilter) := by
  have h := c8_list_filter_sorted emptyDb [] rfl (by decide)
  constructor
  · exact (h.2.1 "done" (by decide)).1
  · exact h.2.2 "bogus" (by decide)

end TaskCli

namespace TaskCli

/-! ### Claim C9 -/

/-- C9: when the document decodes to a sequence, `load_tasks` keeps exactly
the well-formed (mapping) elements, in order, silently dropping the rest;
when the document is not decodable, or decodes to a non-sequence, the load
is a fatal error (diagnostic plus non-zero exit, modelled as
`Except.error`). -/
theorem c9_load_policy :
    (∀ elems : List Json,
      load_tasks (FileState.content (Json.arr elems))
        = (FileState.content (Json.arr elems),
           Except.ok (elems.filterMap asDict?))) ∧
    (∀ elems : List Json,
      (elems.filterMap asDict?).map Json.obj
        = elems.filter (fun j => (asDict? j).isSome)) ∧
    load_tasks FileState.invalid
      = (FileState.invalid, Except.error CmdErr.storageUnreadable) ∧
    (∀ j : Json, (∀ elems : List Json, j ≠ Json.arr elems) →
      load_tasks (FileState.content j)
        = (FileState.content j, Except.error CmdErr.storageUnreadable)) := by
  refine ⟨fun elems => rfl, ?_, rfl, ?_⟩
  · intro elems
    induction elems with
    | nil => rfl
    | cons j rest ih =>
      cases j <;> simp [List.filterMap_cons, List.filter_cons, asDict?, ih]
  · intro j hj
    match j with
    | Json.null | Json.bool _ | Json.num _ | Json.str _ | Json.obj _ => rfl
    | Json.arr elems => exact absurd rfl (hj elems)

/-- Witness for C9: a non-sequence top level is fatal. -/
theorem c9_load_policy_witness :
    load_tasks (FileState.content (Json.str "oops"))
      = (FileState.content (Json.str "oops"),
         Except.error CmdErr.storageUnreadable) :=
  c9_load_policy.2.2.2 (Json.str "oops") (fun _ h => Json.noConfusion h)

/-! ### Claim C10 -/

/-- C10 (counterexample): `save(load())` is not a no-op on every document:
a decoded sequence containing a non-mapping element (here `null`) loses
that element in the round trip, because `load_tasks` drops it and
`save_tasks` writes back only what was kept. -/
theorem c10_counterexample_non_dict_dropped :
    saveAfterLoad (FileState.content (Json.arr [Json.null]))
      = FileState.content (Json.arr []) ∧
    FileState.content (Json.arr ([] : List Json))
      ≠ FileState.content (Json.arr [Json.null]) := by
  refine ⟨rfl, ?_⟩
  intro h
  injection h with h
  injection h with h
  exact List.noConfusion h

/-- C10 (amended): for every persisted document that decodes to a sequence
all of whose elements are mappings, `save_tasks` after `load_tasks` (with
no mutation between) reproduces the document exactly — order and fields
preserved. -/
theorem c10_roundtrip_on_dict_sequences (elems : List Json)
    (h : ∀ j ∈ elems, ∃ f : Dict, j = Json.obj f) :
    saveAfterLoad (FileState.content (Json.arr elems))
      = FileState.content (Json.arr elems) := by
  have key : ∀ l : List Json, (∀ j ∈ l, ∃ f : Dict, j = Json.obj f) →
      (l.filterMap asDict?).map Json.obj = l := by
    intro l
    induction l with
    | nil => intro _; rfl
    | cons j rest ih =>
      intro hl
      obtain ⟨f, hf⟩ := hl j (List.mem_cons_self _ _)
      subst hf
      rw [List.filterMap_cons_some (show asDict? (Json.obj f) = some f from rfl)]
      rw [List.map_cons, ih (fun u hu => hl u (List.mem_cons_of_mem _ hu))]
  show FileState.content (save_tasks (elems.filterMap asDict?))
    = FileState.content (Json.arr elems)
  unfold save_tasks
  rw [key elems h]

/-- Witness for C10 (amended) on a one-element document. -/
theorem c10_roundtrip_witness :
    saveAfterLoad (FileState.content (Json.arr [Json.obj []]))
      = FileState.content (Json.arr [Json.obj []]) :=
  c10_roundtrip_on_dict_sequences [Json.obj []]
    (fun _ hj => ⟨[], List.mem_singleton.mp hj⟩)

end TaskCli

namespace TaskCli

theorem cmd_add_err_keeps (args : List String) (ts : String) (fs : FileState)
    (hfs : fs ≠ FileState.missing) (e : CmdErr) :
    (cmd_add args ts fs).2 = Except.error e → (cmd_add args ts fs).1 = fs := by
  unfold cmd_add
  split
  · intro _; rfl
  · dsimp only
    split
    · intro _; rfl
    · split
      next fs1 e1 heq =>
        intro _
        have h := load_tasks_fst fs hfs
        rw [heq] at h
        exact h
      next fs1 tasks heq =>
        intro hcon
        exact absurd hcon (by simp)

theorem cmd_update_err_keeps (args : List String) (ts : String) (fs : FileState)
    (hfs : fs ≠ FileState.missing) (e : CmdErr) :
    (cmd_update args ts fs).2 = Except.error e → (cmd_update args ts fs).1 = fs := by
  unfold cmd_update
  split
  · intro _; rfl
  · split
    · intro _; rfl
    · dsimp only
      split
      · intro _; rfl
      · split
        next fs1 e1 heq =>
          intro _
          have h := load_tasks_fst fs hfs
          rw [heq] at h
          exact h
        next fs1 tasks heq =>
          have h := load_tasks_fst fs hfs
          rw [heq] at h
          split
          · intro _; exact h
          · intro hcon
            exact absurd hcon (by simp)

theorem cmd_delete_err_keeps (args : List String) (fs : FileState)
    (hfs : fs ≠ FileState.missing) (e : CmdErr) :
    (cmd_delete args fs).2 = Except.error e → (cmd_delete args fs).1 = fs := by
  unfold cmd_delete
  split
  · intro _; rfl
  · split
    · intro _; rfl
    · split
      next fs1 e1 heq =>
        intro _
        have h := load_tasks_fst fs hfs
        rw [heq] at h
        exact h
      next fs1 tasks heq =>
        have h := load_tasks_fst fs hfs
        rw [heq] at h
        dsimp only
        split
        · intro _; exact h
        · intro hcon
          exact absurd hcon (by simp)

theorem cmd_mark_err_keeps (st : String) (args : List String) (ts : String)
    (fs : FileState) (hfs : fs ≠ FileState.missing) (e : CmdErr) :
    (cmd_mark st args ts fs).2 = Except.error e → (cmd_mark st args ts fs).1 = fs := by
  unfold cmd_mark
  split
  · intro _; rfl
  · split
    · intro _; rfl
    · split
      next fs1 e1 heq =>
        intro _
        have h := load_tasks_fst fs hfs
        rw [heq] at h
        exact h
      next fs1 tasks heq =>
        have h := load_tasks_fst fs hfs
        rw [heq] at h
        split
        · intro _; exact h
        · intro hcon
          exact absurd hcon (by simp)

theorem cmd_list_err_keeps (args : List String) (fs : FileState)
    (hfs : fs ≠ FileState.missing) (e : CmdErr) :
    (cmd_list args fs).2 = Except.error e → (cmd_list args fs).1 = fs := by
  unfold cmd_list
  split
  next fs1 e1 heq =>
    intro _
    have h := load_tasks_fst fs hfs
    rw [heq] at h
    exact h
  next fs1 tasks heq =>
    have h := load_tasks_fst fs hfs
    rw [heq] at h
    split
    · intro _; exact h
    · dsimp only
      split
      · intro _; exact h
      · intro _; exact h
    · intro _; exact h

/-! ### Claim C4 -/

/-- C4: for every operation and every failing outcome, the persisted
document is left exactly as it was (given that it existed; on a missing
file only the `ensure_db_exists` bootstrap, which represents the same
empty collection, may create it): no save happens on any failing path. -/
theorem c4_no_save_on_failure (args : List String) (ts : String)
    (fs : FileState) (hfs : fs ≠ FileState.missing) (e : CmdErr) :
    ((cmd_add args ts fs).2 = Except.error e → (cmd_add args ts fs).1 = fs) ∧
    ((cmd_update args ts fs).2 = Except.error e → (cmd_update args ts fs).1 = fs) ∧
    ((cmd_delete args fs).2 = Except.error e → (cmd_delete args fs).1 = fs) ∧
    ((cmd_mark_in_progress args ts fs).2 = Except.error e →
      (cmd_mark_in_progress args ts fs).1 = fs) ∧
    ((cmd_mark_done args ts fs).2 = Except.error e →
      (cmd_mark_done args ts fs).1 = fs) ∧
    ((cmd_list args fs).2 = Except.error e → (cmd_list args fs).1 = fs) :=
  ⟨cmd_add_err_keeps args ts fs hfs e,
   cmd_update_err_keeps args ts fs hfs e,
   cmd_delete_err_keeps args fs hfs e,
   cmd_mark_err_keeps "in-progress" args ts fs hfs e,
   cmd_mark_err_keeps "done" args ts fs hfs e,
   cmd_list_err_keeps args fs hfs e⟩

/-- Witness for C4: a failing add (blank description) leaves the document
untouched. -/
theorem c4_no_save_on_failure_witness :
    (cmd_add [" "] "T" emptyDb).1 = emptyDb :=
  (c4_no_save_on_failure [" "] "T" emptyDb
    (fun h => FileState.noConfusion h) CmdErr.emptyInput).1 rfl

end TaskCli
